import Mathlib

/-!
Verification development for the LSST camera-utilities module
(src/python/lsst/sims/coordUtils/LsstCameraUtils.py).

The module is embedded shallowly:

* coordinates are rational pairs (`PlanePt`);
* the external geometry collaborators (pupil/native/pixel coordinate
  transforms, the square-root routine of the numerics library) are
  parameters collected in `GeomEnv`;
* detectors carry their name, a wavefront flag (the model of
  `det.getType() == WAVEFRONT`) and their fixed pixel bounding box;
* the stateful nested loops of `_findDetectorsListLSST` become explicit
  state passing over `RSt`, with an instrumentation trace recording one
  event per exact containment test (the pre-state of the test is stored
  in the event, so temporal statements about the search become
  statements about the trace);
* fallible entry points return `Except`.
-/

/-- A point of the 2d projected (pupil) plane, of the native camera system,
or of a detector pixel system. -/
abbrev PlanePt := ℚ × ℚ

/-- Default point used for out-of-range list reads in the embedding. -/
def ptZero : PlanePt := (0, 0)

/-- Model of `afwGeom.Box2D(detector.getBBox())`: a fixed rectangle. -/
structure PixBox where
  minX : ℚ
  maxX : ℚ
  minY : ℚ
  maxY : ℚ
deriving DecidableEq

/-- Model of `afwGeom.Box2D.contains`: the closed rectangle test. -/
def PixBox.containsPt (b : PixBox) (p : PlanePt) : Bool :=
  decide (b.minX ≤ p.1) && decide (p.1 ≤ b.maxX) &&
  decide (b.minY ≤ p.2) && decide (p.2 ≤ b.maxY)

/-- Model of an `lsst.afw.cameraGeom` detector as consumed by the module:
a unique name, the type tag (`wavefront = true` models
`getType() == WAVEFRONT`), and the fixed pixel bounding box `getBBox()`. -/
structure Detector where
  name : String
  wavefront : Bool
  bbox : PixBox
deriving DecidableEq

/-- The external geometry collaborators, kept abstract:

* `toNative` — `_lsst_camera._transformSingleSysArray(·, PUPIL, nativeSys)`,
  applied pointwise to the batch;
* `toPixels` — `detector.getTransformMap().transform(·, nativeSys, PIXELS)`
  for the named detector, applied pointwise;
* `pixToPupil` — `pupilCoordsFromPixelCoords` for the named detector,
  applied pointwise;
* `sqrt` — the numeric square root `np.sqrt`. -/
structure GeomEnv where
  toNative : PlanePt → PlanePt
  toPixels : String → PlanePt → PlanePt
  pixToPupil : String → PlanePt → PlanePt
  sqrt : ℚ → ℚ

/-- The exact containment test of `_findDetectorsListLSST` lines 139-144:
transform one native point into the detector pixel frame and test the
detector bounding box. -/
def ptInDetector (env : GeomEnv) (d : Detector) (p : PlanePt) : Bool :=
  d.bbox.containsPt (env.toPixels d.name p)

/-- The footprint index `_lsst_pupil_coord_map`: per-detector name, center
coordinates and bounding radius, all in pupil coordinates. -/
structure PupilCoordMap where
  name : List String
  xx : List ℚ
  yy : List ℚ
  dp : List ℚ
deriving DecidableEq

/-- The flattened corner list of `_build_lsst_pupil_coord_map` lines 36-43:
for each chip of the camera in order, its pixel corners (from the external
`getCornerPixels`) each paired with the chip name. -/
def cornerPairs (camera : List Detector) (cornerFn : String → List PlanePt) :
    List (String × PlanePt) :=
  camera.flatMap (fun chip => (cornerFn chip.name).map (fun cr => (chip.name, cr)))

/-- The per-corner distance term of `_build_lsst_pupil_coord_map` lines 65-66:
`np.sqrt(np.power(xx - x, 2) + np.power(yy - y, 2))`. -/
def cornerDist (env : GeomEnv) (cx cy : ℚ) (p : PlanePt) : ℚ :=
  env.sqrt ((cx - p.1) * (cx - p.1) + (cy - p.2) * (cy - p.2))

/-- The pure computation of `_build_lsst_pupil_coord_map` lines 32-79:
flatten all corner pixels, transform them in one batch to pupil
coordinates, then for chip index `i` read the four entries at flat
positions `4*i .. 4*i+3`, average them into the center, and average the
four center-to-corner distances into the radius. -/
def mkPupilCoordMap (env : GeomEnv) (camera : List Detector)
    (cornerFn : String → List PlanePt) : PupilCoordMap :=
  let pairs := cornerPairs camera cornerFn
  let pup : List PlanePt := pairs.map (fun pr => env.pixToPupil pr.1 pr.2)
  let n := camera.length
  let cX : Nat → ℚ := fun i =>
    (1/4) * ((pup.getD (4*i) ptZero).1 + (pup.getD (4*i+1) ptZero).1
      + (pup.getD (4*i+2) ptZero).1 + (pup.getD (4*i+3) ptZero).1)
  let cY : Nat → ℚ := fun i =>
    (1/4) * ((pup.getD (4*i) ptZero).2 + (pup.getD (4*i+1) ptZero).2
      + (pup.getD (4*i+2) ptZero).2 + (pup.getD (4*i+3) ptZero).2)
  { name := (List.range n).map (fun i => (pairs.getD (4*i) ("", ptZero)).1)
    xx := (List.range n).map cX
    yy := (List.range n).map cY
    dp := (List.range n).map (fun i =>
      (1/4) * (cornerDist env (cX i) (cY i) (pup.getD (4*i) ptZero)
        + cornerDist env (cX i) (cY i) (pup.getD (4*i+1) ptZero)
        + cornerDist env (cX i) (cY i) (pup.getD (4*i+2) ptZero)
        + cornerDist env (cX i) (cY i) (pup.getD (4*i+3) ptZero))) }

/-- `_build_lsst_pupil_coord_map` with its double-initialization guard
(lines 28-30): the current value of the process-wide global
`_lsst_pupil_coord_map` is passed explicitly; a second build raises. -/
def buildPupilCoordMap (env : GeomEnv) (camera : List Detector)
    (cornerFn : String → List PlanePt) (cur : Option PupilCoordMap) :
    Except String PupilCoordMap :=
  match cur with
  | some _ => .error "Calling _build_pupil_coord_map(), but it is already built."
  | none => .ok (mkPupilCoordMap env camera cornerFn)

/-- A result slot of `_findDetectorsListLSST` before the final conversion:
a Python `str` or a Python `list` of names.  A slot holding `none`
corresponds to the Python `None`. -/
inductive OutVal where
  | str (s : String)
  | lst (l : List String)
deriving DecidableEq

/-- The names held by one result slot. -/
def entryNames : Option OutVal → List String
  | none => []
  | some (.str s) => [s]
  | some (.lst l) => l

/-- The result-slot update of `_findDetectorsListLSST` lines 149-154 for a
point that may sit on several chips: the slot grows from `None` to a
single name to a list of names. -/
def growVal : Option OutVal → String → OutVal
  | none, nm => .str nm
  | some (.str s), nm => .lst [s, nm]
  | some (.lst l), nm => .lst (l ++ [nm])

/-- One containment-test event of the search, with the pre-state of the
result array and of the found flags at the moment the test ran. -/
structure Ev where
  det : Detector
  preOutput : List (Option OutVal)
  preFound : List Bool
deriving DecidableEq

/-- The mutable state of `_findDetectorsListLSST`: `outputNameList`,
`chip_has_found` (as booleans; the Python array holds -1 or 1),
`checked_detectors`, plus the instrumentation trace. -/
structure RSt where
  output : List (Option OutVal)
  found : List Bool
  checked : List String
  trace : List Ev
deriving DecidableEq

/-- The read-only data of one `_findDetectorsListLSST` call: the geometry
collaborators, the number of points, the native-system point batch, the
per-point shortlists `detectorList`, and the `could_be_multiple` flags. -/
structure RCtx where
  env : GeomEnv
  npts : Nat
  natPts : List PlanePt
  dlist : List (List Detector)
  cbm : List Bool

/-- Lines 118-123: `could_be_multiple[ipt]` is set exactly when multiple
chips are allowed and some detector of the point shortlist is of
wavefront type. -/
def couldBeMultipleList (n : Nat) (dlist : List (List Detector))
    (allowMultipleChips : Bool) : List Bool :=
  (List.range n).map (fun i => allowMultipleChips && (dlist.getD i []).any (fun d => d.wavefront))

/-- Lines 143-154: the per-point update after the containment test of
detector `d` on point `i`: a point that cannot be on several chips gets
the name and the found flag; an eligible point only grows its slot. -/
def recordPoint (c : RCtx) (d : Detector) (st : RSt) (i : Nat) : RSt :=
  if ptInDetector c.env d (c.natPts.getD i ptZero) then
    if c.cbm.getD i false then
      { st with output := st.output.set i (some (growVal (st.output.getD i none) d.name)) }
    else
      { st with output := st.output.set i (some (.str d.name)),
                found := st.found.set i true }
  else st

/-- Line 130: `np.where(chip_has_found < 0)[0]`. -/
def unfoundOf (c : RCtx) (st : RSt) : List Nat :=
  (List.range c.npts).filter (fun i => !(st.found.getD i true))

/-- Line 136: the unfound points whose shortlist holds detector `d`. -/
def validOf (c : RCtx) (d : Detector) (st : RSt) : List Nat :=
  (unfoundOf c st).filter (fun i => decide (d ∈ c.dlist.getD i []))

/-- Lines 128-154, the body of the inner loop for one detector: skip a
detector already checked; return early (with the current results) when no
point is left unfound; otherwise run the exact containment test on the
valid points, recording one trace event. -/
def checkDetector (c : RCtx) (d : Detector) (st : RSt) :
    Sum (List (Option OutVal) × List Ev) RSt :=
  if d.name ∈ st.checked then .inr st
  else if unfoundOf c st = [] then .inl (st.output, st.trace)
  else if validOf c d st = [] then .inr { st with checked := st.checked ++ [d.name] }
  else .inr ((validOf c d st).foldl (recordPoint c d)
    { output := st.output, found := st.found, checked := st.checked ++ [d.name],
      trace := st.trace ++ [{ det := d, preOutput := st.output, preFound := st.found }] })

/-- Line 127: the loop over the shortlist of one point; an early return
propagates outward. -/
def innerLoop (c : RCtx) : List Detector → RSt → Sum (List (Option OutVal) × List Ev) RSt
  | [], st => .inr st
  | d :: rest, st =>
    match checkDetector c d st with
    | .inl out => .inl out
    | .inr st' => innerLoop c rest st'

/-- Lines 125-126: the loop over the points; a point whose slot is already
filled is skipped (`if outputNameList[ipt] is None`). -/
def outerLoop (c : RCtx) : List Nat → RSt → List (Option OutVal) × List Ev
  | [], st => (st.output, st.trace)
  | ipt :: rest, st =>
    if (st.output.getD ipt none).isSome then outerLoop c rest st
    else
      match innerLoop c (c.dlist.getD ipt []) st with
      | .inl out => out
      | .inr st' => outerLoop c rest st'

/-- The call context of `_findDetectorsListLSST`. -/
def mkRCtx (env : GeomEnv) (pts : List PlanePt) (dlist : List (List Detector))
    (allowMultipleChips : Bool) : RCtx :=
  { env := env, npts := pts.length, natPts := pts.map env.toNative, dlist := dlist,
    cbm := couldBeMultipleList pts.length dlist allowMultipleChips }

/-- `_findDetectorsListLSST` before the final string conversion: the raw
result slots and the containment-test trace. -/
def findDetectorsListFull (env : GeomEnv) (pts : List PlanePt)
    (dlist : List (List Detector)) (allowMultipleChips : Bool) :
    List (Option OutVal) × List Ev :=
  outerLoop (mkRCtx env pts dlist allowMultipleChips) (List.range pts.length)
    { output := List.replicate pts.length none, found := List.replicate pts.length false,
      checked := [], trace := [] }

/-- The apostrophe character, used by the Python `str` of a list. -/
def pyQuote : Char := '\x27'

/-- Python `str` applied to a list of strings, as done on lines 132-134 and
156-158: the composite value returned for a multi-chip point. -/
def pyStrOfList (l : List String) : String :=
  "[" ++ String.intercalate ", " (l.map (fun s => pyQuote.toString ++ s ++ pyQuote.toString)) ++ "]"

/-- Lines 156-158: list slots are converted to their Python string form. -/
def finalizeEntry : Option OutVal → Option String
  | none => none
  | some (.str s) => some s
  | some (.lst l) => some (pyStrOfList l)

/-- `_findDetectorsListLSST`: one (optional) name per input point. -/
def findDetectorsListLSST (env : GeomEnv) (pts : List PlanePt)
    (dlist : List (List Detector)) (allowMultipleChips : Bool) : List (Option String) :=
  ((findDetectorsListFull env pts dlist allowMultipleChips).1).map finalizeEntry

/-- `_lsst_camera[name]`: look a detector up by name. -/
def cameraLookup (camera : List Detector) (nm : String) : Option Detector :=
  camera.find? (fun d => d.name == nm)

/-- Lines 196-202 of `chipNameFromPupilCoordsLSST`: the candidate shortlist
of one pupil point — indices whose normalized center distance
`np.sqrt((x-xx)^2 + (y-yy)^2)/dp` is strictly below 1.1, mapped back to
camera detectors through the name stored in the footprint index. -/
def shortlistOne (env : GeomEnv) (camera : List Detector) (m : PupilCoordMap)
    (x y : ℚ) : List Detector :=
  ((List.range m.xx.length).filter (fun i =>
      decide (env.sqrt ((x - m.xx.getD i 0) * (x - m.xx.getD i 0)
        + (y - m.yy.getD i 0) * (y - m.yy.getD i 0)) / m.dp.getD i 0 < 11/10))).filterMap
    (fun i => cameraLookup camera (m.name.getD i ""))

/-- The pupil-coordinate inputs of the entry points: either a pair of
scalars or a pair of arrays. -/
inductive PupilInput where
  | scalar (x y : ℚ)
  | arrays (xs ys : List ℚ)
deriving DecidableEq

/-- Model of the external `_validate_inputs` collaborator, following the
contract of the spec: both inputs array-like of equal length gives
`True`, both scalars gives `False`, mismatched lengths fail. -/
def validateInputs : PupilInput → Except String Bool
  | .scalar _ _ => .ok false
  | .arrays xs ys =>
      if xs.length = ys.length then .ok true
      else .error "The arrays passed to chipNameFromPupilCoordsLSST need to have the same length"

/-- `chipNameFromPupilCoordsLSST` (lines 164-206): lazily build the
footprint index, validate the input shape (scalars raise), shortlist
every point against the footprint index, and resolve the batch.  The
process-wide index state is passed explicitly as `mapState`. -/
def chipNameFromPupilCoordsLSST (env : GeomEnv) (camera : List Detector)
    (cornerFn : String → List PlanePt) (mapState : Option PupilCoordMap)
    (input : PupilInput) (allowMultipleChips : Bool) :
    Except String (List (Option String)) :=
  let m := match mapState with
    | some m0 => m0
    | none => mkPupilCoordMap env camera cornerFn
  match validateInputs input with
  | .error e => .error e
  | .ok areArrays =>
    if areArrays = false then
      .error "Pupil coordinates passed to chipNameFromPupilCoordsLSST must be in numpy arrays"
    else
      match input with
      | .scalar _ _ =>
          .error "Pupil coordinates passed to chipNameFromPupilCoordsLSST must be in numpy arrays"
      | .arrays xs ys =>
          let pts := xs.zip ys
          let dls := pts.map (fun p => shortlistOne env camera m p.1 p.2)
          .ok (findDetectorsListLSST env pts dls allowMultipleChips)

/-- The observation context `ObservationMetaData`, with its two fields read
by `_chipNameFromRaDecLSST`. -/
structure ObsMeta where
  mjd : Option ℚ
  rotSkyPos : Option ℚ
deriving DecidableEq

/-- `_chipNameFromRaDecLSST` (lines 209-249): validate the inputs, require
an epoch, an observation context, its mjd and its rotSkyPos — each
missing field raises before the sky transform `_pupilCoordsFromRaDec`
(the parameter `skyT`) runs — then delegate to the pupil entry point. -/
def chipNameFromRaDecLSST (env : GeomEnv) (camera : List Detector)
    (cornerFn : String → List PlanePt) (mapState : Option PupilCoordMap)
    (skyT : PupilInput → ObsMeta → ℚ → PupilInput) (radec : PupilInput)
    (obs : Option ObsMeta) (epoch : Option ℚ) (allowMultipleChips : Bool) :
    Except String (List (Option String)) :=
  match validateInputs radec with
  | .error e => .error e
  | .ok _ =>
    if epoch.isNone then .error "You need to pass an epoch into chipName"
    else
      match obs with
      | none => .error "You need to pass an ObservationMetaData into chipName"
      | some ob =>
        if ob.mjd.isNone then
          .error "You need to pass an ObservationMetaData with an mjd into chipName"
        else if ob.rotSkyPos.isNone then
          .error "You need to pass an ObservationMetaData with a rotSkyPos into chipName"
        else
          chipNameFromPupilCoordsLSST env camera cornerFn mapState
            (skyT radec ob (epoch.getD 0)) allowMultipleChips

/-- The containment-relevance test used to state which trace event first
resolves a given point: the event detector is on the point shortlist and
its box contains the point. -/
def evRelevant (env : GeomEnv) (dl : List Detector) (natp : PlanePt) (ev : Ev) : Bool :=
  decide (ev.det ∈ dl) && ptInDetector env ev.det natp

/-- `evRelevant` phrased against a call context. -/
def relEv (c : RCtx) (i : Nat) : Ev → Bool :=
  evRelevant c.env (c.dlist.getD i []) (c.natPts.getD i ptZero)

/-- Detector names determine detectors across the shortlists (true of the
LSST camera, whose chip names are unique). -/
def InjNames (c : RCtx) : Prop :=
  ∀ d1 ∈ c.dlist.flatten, ∀ d2 ∈ c.dlist.flatten, d1.name = d2.name → d1 = d2

/-- Monotone facts relating a resolver state to a later one of the same
call: checked detectors stay checked, found points stay found, filled
result slots stay filled. -/
def RMono (st st' : RSt) : Prop :=
  (∀ nm ∈ st.checked, nm ∈ st'.checked) ∧
  (∀ i : Nat, st.found.getD i false = true → st'.found.getD i false = true) ∧
  (∀ i : Nat, (st.output.getD i none).isSome = true → (st'.output.getD i none).isSome = true)

/-- The invariant carried by every state of one `_findDetectorsListLSST`
call.  `single` pins the slot of every point that cannot be on several
chips to the first relevant containment test of the trace; `compl` says a
checked detector has resolved every such point it contains. -/
structure RInv (c : RCtx) (st : RSt) : Prop where
  lenOut : st.output.length = c.npts
  lenFound : st.found.length = c.npts
  traceNodup : (st.trace.map (fun ev => ev.det.name)).Nodup
  traceChecked : ∀ ev ∈ st.trace, ev.det.name ∈ st.checked
  traceUnfound : ∀ ev ∈ st.trace, false ∈ ev.preFound
  entries : ∀ i : Nat, (∀ nm ∈ entryNames (st.output.getD i none), nm ∈ st.checked) ∧
      (entryNames (st.output.getD i none)).Nodup
  single : ∀ i < c.npts, c.cbm.getD i false = false →
      st.output.getD i none = (st.trace.find? (relEv c i)).map (fun ev => OutVal.str ev.det.name) ∧
      st.found.getD i false = (st.trace.find? (relEv c i)).isSome
  compl : InjNames c → ∀ d ∈ c.dlist.flatten, d.name ∈ st.checked →
      ∀ i < c.npts, c.cbm.getD i false = false → d ∈ c.dlist.getD i [] →
      ptInDetector c.env d (c.natPts.getD i ptZero) = true →
      st.found.getD i false = true

/-- A detector used in concrete runs below. -/
def dummyDet : Detector := { name := "", wavefront := false, bbox := ⟨0, 0, 0, 0⟩ }

/-- A trace event used as an out-of-range default in concrete runs. -/
def evDummy : Ev := { det := dummyDet, preOutput := [], preFound := [] }

/-- Concrete geometry used by the counterexamples and witnesses: the
native transform and the per-detector pixel transforms are identities,
the square root is the identity (its value is irrelevant there). -/
def env0 : GeomEnv :=
  { toNative := id, toPixels := fun _ p => p, pixToPupil := fun _ p => p, sqrt := id }

/-- The unit box, used as the pixel bounding box of the concrete detectors. -/
def box01 : PixBox := { minX := 0, maxX := 1, minY := 0, maxY := 1 }

/-- A concrete wavefront detector. -/
def dW1 : Detector := { name := "W1", wavefront := true, bbox := box01 }

/-- A second concrete wavefront detector with the same footprint. -/
def dW2 : Detector := { name := "W2", wavefront := true, bbox := box01 }

/-- A concrete ordinary (non-wavefront) detector. -/
def dO1 : Detector := { name := "O1", wavefront := false, bbox := box01 }

/-- A second concrete ordinary detector with the same footprint. -/
def dO2 : Detector := { name := "O2", wavefront := false, bbox := box01 }

/-- A concrete one-detector camera entry used by witnesses. -/
def dA : Detector := { name := "A", wavefront := false, bbox := box01 }

/-- A concrete footprint index used by witnesses: one record named "A"
with center (0, 0) and radius 1. -/
def m4 : PupilCoordMap := { name := ["A"], xx := [0], yy := [0], dp := [1] }

/-- A concrete corner extractor used by witnesses: every chip reports the
four corners of the unit square. -/
def corner4 : String → List PlanePt := fun _ => [(0, 0), (0, 1), (1, 0), (1, 1)]

/-- Stated from the spec (not from the code): corner `j` of chip `i`,
transformed to the projected plane. -/
def specCorner (env : GeomEnv) (camera : List Detector)
    (cornerFn : String → List PlanePt) (i j : Nat) : PlanePt :=
  env.pixToPupil (camera.getD i dummyDet).name
    ((cornerFn (camera.getD i dummyDet).name).getD j ptZero)

/-- Stated from the spec (not from the code): the arithmetic mean of the
four transformed corners of chip `i`. -/
def specCenter (env : GeomEnv) (camera : List Detector)
    (cornerFn : String → List PlanePt) (i : Nat) : PlanePt :=
  (((specCorner env camera cornerFn i 0).1 + (specCorner env camera cornerFn i 1).1
      + (specCorner env camera cornerFn i 2).1 + (specCorner env camera cornerFn i 3).1) / 4,
   ((specCorner env camera cornerFn i 0).2 + (specCorner env camera cornerFn i 1).2
      + (specCorner env camera cornerFn i 2).2 + (specCorner env camera cornerFn i 3).2) / 4)

/-- Stated from the spec (not from the code): the distance (through the
square-root model) from the mean center of chip `i` to its transformed
corner `j`. -/
def specDist (env : GeomEnv) (camera : List Detector)
    (cornerFn : String → List PlanePt) (i j : Nat) : ℚ :=
  env.sqrt
    (((specCenter env camera cornerFn i).1 - (specCorner env camera cornerFn i j).1)
        * ((specCenter env camera cornerFn i).1 - (specCorner env camera cornerFn i j).1)
      + ((specCenter env camera cornerFn i).2 - (specCorner env camera cornerFn i j).2)
        * ((specCenter env camera cornerFn i).2 - (specCorner env camera cornerFn i j).2))

/-! Helper lemmas about list reads. -/

lemma getD_indep {α : Type} (l : List α) (i : Nat) (h : i < l.length) (a b : α) :
    l.getD i a = l.getD i b := by
  simp [List.getD_eq_getElem?_getD, List.getElem?_eq_getElem h]

lemma getD_range_map {α : Type} (f : Nat → α) (n i : Nat) (h : i < n) (a : α) :
    ((List.range n).map f).getD i a = f i := by
  simp [List.getD_eq_getElem?_getD, List.getElem?_map, List.getElem?_range, h]

lemma getD_map_lt {α β : Type} (f : α → β) (l : List α) (i : Nat) (h : i < l.length)
    (b : β) (a : α) : (l.map f).getD i b = f (l.getD i a) := by
  simp [List.getD_eq_getElem?_getD, List.getElem?_map, List.getElem?_eq_getElem h]

lemma getD_replicate_any {α : Type} (n i : Nat) (a b : α) :
    (List.replicate n a).getD i b = if i < n then a else b := by
  simp only [List.getD_eq_getElem?_getD, List.getElem?_replicate]
  split <;> rfl

lemma mem_getD_flatten {α : Type} (l : List (List α)) (i : Nat) (a : α)
    (h : a ∈ l.getD i []) : a ∈ l.flatten := by
  by_cases hi : i < l.length
  · refine List.mem_flatten.mpr ⟨l.getD i [], ?_, h⟩
    rw [List.getD_eq_getElem?_getD, List.getElem?_eq_getElem hi]
    exact List.getElem_mem hi
  · rw [List.getD_eq_getElem?_getD, List.getElem?_eq_none (Nat.le_of_not_lt hi)] at h
    cases h

/-! Pointwise behaviour of the per-detector update fold. -/

lemma recordPoint_fields (c : RCtx) (d : Detector) (st : RSt) (i : Nat) :
    (recordPoint c d st i).checked = st.checked ∧
    (recordPoint c d st i).trace = st.trace ∧
    (recordPoint c d st i).output.length = st.output.length ∧
    (recordPoint c d st i).found.length = st.found.length := by
  unfold recordPoint
  split
  · split <;> simp
  · simp

lemma foldl_recordPoint_fields (c : RCtx) (d : Detector) (l : List Nat) (st : RSt) :
    (l.foldl (recordPoint c d) st).checked = st.checked ∧
    (l.foldl (recordPoint c d) st).trace = st.trace ∧
    (l.foldl (recordPoint c d) st).output.length = st.output.length ∧
    (l.foldl (recordPoint c d) st).found.length = st.found.length := by
  induction l generalizing st with
  | nil => exact ⟨rfl, rfl, rfl, rfl⟩
  | cons j t ih =>
    simp only [List.foldl_cons]
    obtain ⟨a1, a2, a3, a4⟩ := recordPoint_fields c d st j
    obtain ⟨b1, b2, b3, b4⟩ := ih (recordPoint c d st j)
    exact ⟨by rw [b1, a1], by rw [b2, a2], by rw [b3, a3], by rw [b4, a4]⟩

lemma recordPoint_get_other (c : RCtx) (d : Detector) (st : RSt) (i j : Nat) (h : j ≠ i) :
    (recordPoint c d st j).output.getD i none = st.output.getD i none ∧
    (recordPoint c d st j).found.getD i false = st.found.getD i false := by
  unfold recordPoint
  split
  · split
    · exact ⟨by simp [List.getD_eq_getElem?_getD, List.getElem?_set_ne h], rfl⟩
    · exact ⟨by simp [List.getD_eq_getElem?_getD, List.getElem?_set_ne h],
             by simp [List.getD_eq_getElem?_getD, List.getElem?_set_ne h]⟩
  · exact ⟨rfl, rfl⟩

lemma recordPoint_get_self (c : RCtx) (d : Detector) (st : RSt) (i : Nat)
    (ho : i < st.output.length) (hf : i < st.found.length) :
    (recordPoint c d st i).output.getD i none =
      (if ptInDetector c.env d (c.natPts.getD i ptZero) = true then
        (if c.cbm.getD i false = true then some (growVal (st.output.getD i none) d.name)
         else some (OutVal.str d.name))
       else st.output.getD i none) ∧
    (recordPoint c d st i).found.getD i false =
      (if ptInDetector c.env d (c.natPts.getD i ptZero) = true then
        (if c.cbm.getD i false = true then st.found.getD i false else true)
       else st.found.getD i false) := by
  unfold recordPoint
  by_cases h1 : ptInDetector c.env d (c.natPts.getD i ptZero) = true
  · by_cases h2 : c.cbm.getD i false = true
    · rw [if_pos h1, if_pos h2, if_pos h1, if_pos h2, if_pos h1, if_pos h2]
      refine ⟨?_, rfl⟩
      rw [List.getD_eq_getElem?_getD, List.getElem?_set_self ho]
      rfl
    · rw [if_pos h1, if_neg h2, if_pos h1, if_neg h2, if_pos h1, if_neg h2]
      refine ⟨?_, ?_⟩
      · rw [List.getD_eq_getElem?_getD, List.getElem?_set_self ho]
        rfl
      · rw [List.getD_eq_getElem?_getD, List.getElem?_set_self hf]
        rfl
  · rw [if_neg h1, if_neg h1, if_neg h1]
    exact ⟨rfl, rfl⟩

lemma foldl_recordPoint_get_notMem (c : RCtx) (d : Detector) (l : List Nat) (st : RSt)
    (i : Nat) (h : i ∉ l) :
    (l.foldl (recordPoint c d) st).output.getD i none = st.output.getD i none ∧
    (l.foldl (recordPoint c d) st).found.getD i false = st.found.getD i false := by
  induction l generalizing st with
  | nil => exact ⟨rfl, rfl⟩
  | cons j t ih =>
    simp only [List.foldl_cons]
    have hj : j ≠ i := fun he => h (he ▸ List.mem_cons_self j t)
    obtain ⟨a1, a2⟩ := recordPoint_get_other c d st i j hj
    obtain ⟨b1, b2⟩ := ih (recordPoint c d st j) (fun hm => h (List.mem_cons_of_mem _ hm))
    exact ⟨b1.trans a1, b2.trans a2⟩

lemma foldl_recordPoint_get_mem (c : RCtx) (d : Detector) (l : List Nat) (st : RSt)
    (i : Nat) (hnd : l.Nodup) (hm : i ∈ l)
    (ho : i < st.output.length) (hf : i < st.found.length) :
    (l.foldl (recordPoint c d) st).output.getD i none =
      (if ptInDetector c.env d (c.natPts.getD i ptZero) = true then
        (if c.cbm.getD i false = true then some (growVal (st.output.getD i none) d.name)
         else some (OutVal.str d.name))
       else st.output.getD i none) ∧
    (l.foldl (recordPoint c d) st).found.getD i false =
      (if ptInDetector c.env d (c.natPts.getD i ptZero) = true then
        (if c.cbm.getD i false = true then st.found.getD i false else true)
       else st.found.getD i false) := by
  induction l generalizing st with
  | nil => cases hm
  | cons j t ih =>
    simp only [List.foldl_cons]
    rcases List.mem_cons.mp hm with he | hm'
    · subst he
      have hnotin : i ∉ t := (List.nodup_cons.mp hnd).1
      obtain ⟨a1, a2⟩ := recordPoint_get_self c d st i ho hf
      obtain ⟨b1, b2⟩ := foldl_recordPoint_get_notMem c d t (recordPoint c d st i) i hnotin
      exact ⟨b1.trans a1, b2.trans a2⟩
    · have hj : j ≠ i := fun he => ((List.nodup_cons.mp hnd).1 (he ▸ hm')).elim
      obtain ⟨a1, a2⟩ := recordPoint_get_other c d st i j hj
      have ho' : i < (recordPoint c d st j).output.length := by
        rw [(recordPoint_fields c d st j).2.2.1]; exact ho
      have hf' : i < (recordPoint c d st j).found.length := by
        rw [(recordPoint_fields c d st j).2.2.2]; exact hf
      obtain ⟨b1, b2⟩ := ih (recordPoint c d st j) (List.nodup_cons.mp hnd).2 hm' ho' hf'
      rw [b1, b2, a1, a2]
      exact ⟨rfl, rfl⟩

/-! Membership in the unfound and valid index lists. -/

lemma mem_unfoundOf {c : RCtx} {st : RSt} {i : Nat} :
    i ∈ unfoundOf c st ↔ i < c.npts ∧ st.found.getD i true = false := by
  simp [unfoundOf, List.mem_filter, List.mem_range]

lemma mem_validOf {c : RCtx} {d : Detector} {st : RSt} {i : Nat} :
    i ∈ validOf c d st ↔
      (i < c.npts ∧ st.found.getD i true = false) ∧ d ∈ c.dlist.getD i [] := by
  simp [validOf, List.mem_filter, mem_unfoundOf]

lemma validOf_nodup (c : RCtx) (d : Detector) (st : RSt) : (validOf c d st).Nodup :=
  List.Nodup.filter _ (List.Nodup.filter _ (List.nodup_range _))

/-! Case equations for the body of the detector loop. -/

lemma checkDetector_case_checked {c : RCtx} {d : Detector} {st : RSt}
    (h : d.name ∈ st.checked) : checkDetector c d st = .inr st := by
  simp [checkDetector, h]

lemma checkDetector_case_done {c : RCtx} {d : Detector} {st : RSt}
    (h : ¬ d.name ∈ st.checked) (h2 : unfoundOf c st = []) :
    checkDetector c d st = .inl (st.output, st.trace) := by
  simp [checkDetector, h, h2]

lemma checkDetector_case_skip {c : RCtx} {d : Detector} {st : RSt}
    (h : ¬ d.name ∈ st.checked) (h2 : unfoundOf c st ≠ []) (h3 : validOf c d st = []) :
    checkDetector c d st = .inr { st with checked := st.checked ++ [d.name] } := by
  simp [checkDetector, h, h2, h3]

lemma checkDetector_case_test {c : RCtx} {d : Detector} {st : RSt}
    (h : ¬ d.name ∈ st.checked) (h2 : unfoundOf c st ≠ []) (h3 : validOf c d st ≠ []) :
    checkDetector c d st = .inr ((validOf c d st).foldl (recordPoint c d)
      { output := st.output, found := st.found, checked := st.checked ++ [d.name],
        trace := st.trace ++ [{ det := d, preOutput := st.output, preFound := st.found }] }) := by
  simp [checkDetector, h, h2, h3]

/-! Small facts used by the invariant preservation argument. -/

lemma growVal_names (e : Option OutVal) (nm : String) :
    entryNames (some (growVal e nm)) = entryNames e ++ [nm] := by
  cases e with
  | none => rfl
  | some v => cases v <;> rfl

lemma nodup_append_singleton {α : Type} {l : List α} {a : α} (h : l.Nodup) (ha : a ∉ l) :
    (l ++ [a]).Nodup := by
  rw [List.nodup_append]
  refine ⟨h, List.nodup_singleton a, ?_⟩
  intro x hx hy
  rw [List.mem_singleton] at hy
  exact ha (hy ▸ hx)

lemma false_mem_of_getD (l : List Bool) (i : Nat) (h : l.getD i true = false) : false ∈ l := by
  by_cases hi : i < l.length
  · rw [List.getD_eq_getElem?_getD, List.getElem?_eq_getElem hi] at h
    simp only [Option.getD_some] at h
    exact h ▸ List.getElem_mem hi
  · rw [List.getD_eq_getElem?_getD, List.getElem?_eq_none (Nat.le_of_not_lt hi)] at h
    cases h

lemma relEv_mk {c : RCtx} {i : Nat} {d : Detector} {o : List (Option OutVal)}
    {f : List Bool} :
    relEv c i { det := d, preOutput := o, preFound := f } = true ↔
      d ∈ c.dlist.getD i [] ∧ ptInDetector c.env d (c.natPts.getD i ptZero) = true := by
  simp [relEv, evRelevant]

lemma rmono_refl (st : RSt) : RMono st st :=
  ⟨fun _ h => h, fun _ h => h, fun _ h => h⟩

lemma rmono_trans {s1 s2 s3 : RSt} (a : RMono s1 s2) (b : RMono s2 s3) : RMono s1 s3 :=
  ⟨fun nm h => b.1 nm (a.1 nm h), fun i h => b.2.1 i (a.2.1 i h),
   fun i h => b.2.2 i (a.2.2 i h)⟩

/-- Preservation of the invariant by one detector step of the search. -/
lemma checkDetector_inr_rinv (c : RCtx) (d : Detector) (st st' : RSt)
    (hd : d ∈ c.dlist.flatten) (hst : RInv c st)
    (h : checkDetector c d st = .inr st') :
    RInv c st' ∧ RMono st st' ∧ d.name ∈ st'.checked := by
  by_cases hc : d.name ∈ st.checked
  · rw [checkDetector_case_checked hc] at h
    obtain rfl := Sum.inr.inj h
    exact ⟨hst, rmono_refl st, hc⟩
  by_cases hu : unfoundOf c st = []
  · rw [checkDetector_case_done hc hu] at h
    cases h
  by_cases hv : validOf c d st = []
  · rw [checkDetector_case_skip hc hu hv] at h
    obtain rfl := Sum.inr.inj h
    refine ⟨⟨hst.lenOut, hst.lenFound, hst.traceNodup, ?_, hst.traceUnfound, ?_,
      hst.single, ?_⟩, ?_, ?_⟩
    · intro ev hev
      exact List.mem_append_left _ (hst.traceChecked ev hev)
    · intro i
      exact ⟨fun nm hnm => List.mem_append_left _ ((hst.entries i).1 nm hnm),
        (hst.entries i).2⟩
    · intro hinj d' hd' hname i hi hcbm hmem hpt
      rcases List.mem_append.mp hname with hold | hnew
      · exact hst.compl hinj d' hd' hold i hi hcbm hmem hpt
      · rw [List.mem_singleton] at hnew
        obtain rfl := hinj d' hd' d hd hnew
        by_contra hfo
        have hlen : i < st.found.length := by rw [hst.lenFound]; exact hi
        have hfo' : st.found.getD i true = false := by
          rw [getD_indep st.found i hlen true false]
          exact Bool.eq_false_iff.mpr hfo
        have hmm : i ∈ validOf c d' st := mem_validOf.mpr ⟨⟨hi, hfo'⟩, hmem⟩
        rw [hv] at hmm
        cases hmm
    · exact ⟨fun nm hnm => List.mem_append_left _ hnm, fun i hf => hf, fun i ho => ho⟩
    · exact List.mem_append_right _ (List.mem_singleton_self _)
  · rw [checkDetector_case_test hc hu hv] at h
    obtain rfl := Sum.inr.inj h
    set s1 : RSt :=
      { output := st.output, found := st.found, checked := st.checked ++ [d.name],
        trace := st.trace ++ [{ det := d, preOutput := st.output, preFound := st.found }] }
      with hs1
    set res : RSt := (validOf c d st).foldl (recordPoint c d) s1 with hres
    have hck : res.checked = st.checked ++ [d.name] :=
      (foldl_recordPoint_fields c d (validOf c d st) s1).1
    have htr : res.trace =
        st.trace ++ [{ det := d, preOutput := st.output, preFound := st.found }] :=
      (foldl_recordPoint_fields c d (validOf c d st) s1).2.1
    have hlo : res.output.length = st.output.length :=
      (foldl_recordPoint_fields c d (validOf c d st) s1).2.2.1
    have hlf : res.found.length = st.found.length :=
      (foldl_recordPoint_fields c d (validOf c d st) s1).2.2.2
    have hpoint_not : ∀ i, i ∉ validOf c d st →
        res.output.getD i none = st.output.getD i none ∧
        res.found.getD i false = st.found.getD i false :=
      fun i hi => foldl_recordPoint_get_notMem c d (validOf c d st) s1 i hi
    have hpoint_mem : ∀ i, i ∈ validOf c d st →
        res.output.getD i none =
          (if ptInDetector c.env d (c.natPts.getD i ptZero) = true then
            (if c.cbm.getD i false = true then
              some (growVal (st.output.getD i none) d.name)
             else some (OutVal.str d.name))
           else st.output.getD i none) ∧
        res.found.getD i false =
          (if ptInDetector c.env d (c.natPts.getD i ptZero) = true then
            (if c.cbm.getD i false = true then st.found.getD i false else true)
           else st.found.getD i false) := by
      intro i hi
      have hilt := (mem_validOf.mp hi).1.1
      refine foldl_recordPoint_get_mem c d (validOf c d st) s1 i
        (validOf_nodup c d st) hi ?_ ?_
      · show i < st.output.length
        rw [hst.lenOut]; exact hilt
      · show i < st.found.length
        rw [hst.lenFound]; exact hilt
    have hnotv : ∀ i, st.found.getD i false = true → i ∉ validOf c d st := by
      intro i hf hmem
      have h1 := (mem_validOf.mp hmem).1.2
      have hlen : i < st.found.length := by
        rw [hst.lenFound]; exact (mem_validOf.mp hmem).1.1
      rw [getD_indep st.found i hlen true false, hf] at h1
      cases h1
    have hmono : RMono st res := by
      refine ⟨?_, ?_, ?_⟩
      · intro nm hnm; rw [hck]; exact List.mem_append_left _ hnm
      · intro i hf
        rw [(hpoint_not i (hnotv i hf)).2]; exact hf
      · intro i ho
        by_cases hiv : i ∈ validOf c d st
        · rw [(hpoint_mem i hiv).1]
          split
          · split <;> rfl
          · exact ho
        · rw [(hpoint_not i hiv).1]; exact ho
    have hnmtrace : d.name ∉ st.trace.map (fun ev => ev.det.name) := by
      intro hmem
      obtain ⟨ev', hev', hname⟩ := List.mem_map.mp hmem
      exact hc (hname ▸ hst.traceChecked ev' hev')
    have hnment : ∀ i, d.name ∉ entryNames (st.output.getD i none) :=
      fun i hmem => hc ((hst.entries i).1 _ hmem)
    refine ⟨⟨?_, ?_, ?_, ?_, ?_, ?_, ?_, ?_⟩, hmono, ?_⟩
    · rw [hlo]; exact hst.lenOut
    · rw [hlf]; exact hst.lenFound
    · rw [htr, List.map_append]
      exact nodup_append_singleton hst.traceNodup hnmtrace
    · intro ev hev
      rw [htr] at hev
      rw [hck]
      rcases List.mem_append.mp hev with hold | hnew
      · exact List.mem_append_left _ (hst.traceChecked ev hold)
      · rw [List.mem_singleton] at hnew
        subst hnew
        exact List.mem_append_right _ (List.mem_singleton_self _)
    · intro ev hev
      rw [htr] at hev
      rcases List.mem_append.mp hev with hold | hnew
      · exact hst.traceUnfound ev hold
      · rw [List.mem_singleton] at hnew
        subst hnew
        obtain ⟨i0, hi0⟩ := List.exists_mem_of_ne_nil _ hv
        exact false_mem_of_getD st.found i0 (mem_validOf.mp hi0).1.2
    · intro i
      by_cases hiv : i ∈ validOf c d st
      · by_cases hpt : ptInDetector c.env d (c.natPts.getD i ptZero) = true
        · by_cases hcb : c.cbm.getD i false = true
          · rw [(hpoint_mem i hiv).1, if_pos hpt, if_pos hcb, growVal_names]
            constructor
            · intro nm hnm
              rw [hck]
              rcases List.mem_append.mp hnm with h1 | h2
              · exact List.mem_append_left _ ((hst.entries i).1 nm h1)
              · rw [List.mem_singleton] at h2
                subst h2
                exact List.mem_append_right _ (List.mem_singleton_self _)
            · exact nodup_append_singleton (hst.entries i).2 (hnment i)
          · rw [(hpoint_mem i hiv).1, if_pos hpt, if_neg hcb]
            constructor
            · intro nm hnm
              rw [show entryNames (some (OutVal.str d.name)) = [d.name] from rfl,
                List.mem_singleton] at hnm
              subst hnm
              rw [hck]
              exact List.mem_append_right _ (List.mem_singleton_self _)
            · exact List.nodup_singleton _
        · rw [(hpoint_mem i hiv).1, if_neg hpt]
          refine ⟨fun nm hnm => ?_, (hst.entries i).2⟩
          rw [hck]
          exact List.mem_append_left _ ((hst.entries i).1 nm hnm)
      · rw [(hpoint_not i hiv).1]
        refine ⟨fun nm hnm => ?_, (hst.entries i).2⟩
        rw [hck]
        exact List.mem_append_left _ ((hst.entries i).1 nm hnm)
    · intro i hi hcbm
      obtain ⟨so, sf⟩ := hst.single i hi hcbm
      rw [htr, List.find?_append]
      rcases hfind : st.trace.find? (relEv c i) with _ | ev₀
      · rw [hfind] at so sf
        have hcb' : ¬ (c.cbm.getD i false = true) := by
          rw [hcbm]; exact Bool.false_ne_true
        by_cases hrel : relEv c i { det := d, preOutput := st.output, preFound := st.found } = true
        · obtain ⟨hmem, hpt⟩ := relEv_mk.mp hrel
          have hiv : i ∈ validOf c d st := by
            refine mem_validOf.mpr ⟨⟨hi, ?_⟩, hmem⟩
            have hlen : i < st.found.length := by rw [hst.lenFound]; exact hi
            rw [getD_indep st.found i hlen true false]
            simpa using sf
          have hfd : List.find? (relEv c i)
              [{ det := d, preOutput := st.output, preFound := st.found }] =
              some { det := d, preOutput := st.output, preFound := st.found } := by
            rw [List.find?_cons, hrel]
          rw [hfd]
          constructor
          · rw [(hpoint_mem i hiv).1, if_pos hpt, if_neg hcb']
            rfl
          · rw [(hpoint_mem i hiv).2, if_pos hpt, if_neg hcb']
            rfl
        · have hfd : List.find? (relEv c i)
              [{ det := d, preOutput := st.output, preFound := st.found }] = none := by
            rw [List.find?_cons, Bool.eq_false_iff.mpr hrel]
            rfl
          rw [hfd]
          by_cases hiv : i ∈ validOf c d st
          · have hmem := (mem_validOf.mp hiv).2
            have hpt' : ¬ (ptInDetector c.env d (c.natPts.getD i ptZero) = true) := by
              intro hpt
              exact hrel (relEv_mk.mpr ⟨hmem, hpt⟩)
            constructor
            · rw [(hpoint_mem i hiv).1, if_neg hpt']
              exact so
            · rw [(hpoint_mem i hiv).2, if_neg hpt']
              exact sf
          · exact ⟨(hpoint_not i hiv).1.trans so, (hpoint_not i hiv).2.trans sf⟩
      · rw [hfind] at so sf
        have hfo : st.found.getD i false = true := sf
        have hiv : i ∉ validOf c d st := hnotv i hfo
        have hor : (some ev₀).or (List.find? (relEv c i)
            [{ det := d, preOutput := st.output, preFound := st.found }]) = some ev₀ := rfl
        rw [hor]
        exact ⟨(hpoint_not i hiv).1.trans so, (hpoint_not i hiv).2.trans sf⟩
    · intro hinj d' hd' hname i hi hcbm hmem hpt
      rw [hck] at hname
      rcases List.mem_append.mp hname with hold | hnew
      · exact hmono.2.1 i (hst.compl hinj d' hd' hold i hi hcbm hmem hpt)
      · rw [List.mem_singleton] at hnew
        obtain rfl := hinj d' hd' d hd hnew
        by_cases hfo : st.found.getD i false = true
        · exact hmono.2.1 i hfo
        · have hlen : i < st.found.length := by rw [hst.lenFound]; exact hi
          have hiv : i ∈ validOf c d' st := by
            refine mem_validOf.mpr ⟨⟨hi, ?_⟩, hmem⟩
            rw [getD_indep st.found i hlen true false]
            exact Bool.eq_false_iff.mpr hfo
          have hcb' : ¬ (c.cbm.getD i false = true) := by
            rw [hcbm]; exact Bool.false_ne_true
          rw [(hpoint_mem i hiv).2, if_pos hpt, if_neg hcb']
    · rw [hck]
      exact List.mem_append_right _ (List.mem_singleton_self _)

lemma checkDetector_inl_spec (c : RCtx) (d : Detector) (st : RSt)
    (out : List (Option OutVal) × List Ev)
    (h : checkDetector c d st = .inl out) :
    out = (st.output, st.trace) ∧ unfoundOf c st = [] := by
  by_cases hc : d.name ∈ st.checked
  · rw [checkDetector_case_checked hc] at h; cases h
  by_cases hu : unfoundOf c st = []
  · rw [checkDetector_case_done hc hu] at h
    exact ⟨(Sum.inl.inj h).symm, hu⟩
  by_cases hv : validOf c d st = []
  · rw [checkDetector_case_skip hc hu hv] at h; cases h
  · rw [checkDetector_case_test hc hu hv] at h; cases h

lemma innerLoop_spec (c : RCtx) (ds : List Detector) (st : RSt)
    (hds : ∀ d ∈ ds, d ∈ c.dlist.flatten) (hst : RInv c st) :
    (∀ out, innerLoop c ds st = .inl out →
      ∃ ste : RSt, out = (ste.output, ste.trace) ∧ RInv c ste ∧ unfoundOf c ste = [] ∧
        RMono st ste) ∧
    (∀ st', innerLoop c ds st = .inr st' →
      RInv c st' ∧ RMono st st' ∧ ∀ d ∈ ds, d.name ∈ st'.checked) := by
  induction ds generalizing st with
  | nil =>
    constructor
    · intro out hout; cases hout
    · intro st' h
      obtain rfl := Sum.inr.inj h
      exact ⟨hst, rmono_refl st, fun d hd => absurd hd (List.not_mem_nil d)⟩
  | cons d rest ih =>
    rcases hcd : checkDetector c d st with out1 | st1
    · have hrun : innerLoop c (d :: rest) st = .inl out1 := by
        simp [innerLoop, hcd]
      obtain ⟨houteq, hunf⟩ := checkDetector_inl_spec c d st out1 hcd
      constructor
      · intro out hout
        rw [hrun] at hout
        obtain rfl := Sum.inl.inj hout
        exact ⟨st, houteq, hst, hunf, rmono_refl st⟩
      · intro st' h
        rw [hrun] at h; cases h
    · have hrun : innerLoop c (d :: rest) st = innerLoop c rest st1 := by
        simp [innerLoop, hcd]
      obtain ⟨hinv1, hmono1, hname1⟩ :=
        checkDetector_inr_rinv c d st st1 (hds d (List.mem_cons_self d rest)) hst hcd
      have ihs := ih st1 (fun d' hd' => hds d' (List.mem_cons_of_mem d hd')) hinv1
      constructor
      · intro out hout
        rw [hrun] at hout
        obtain ⟨ste, he, hi2, hu2, hm2⟩ := ihs.1 out hout
        exact ⟨ste, he, hi2, hu2, rmono_trans hmono1 hm2⟩
      · intro st' h
        rw [hrun] at h
        obtain ⟨hi2, hm2, hn2⟩ := ihs.2 st' h
        refine ⟨hi2, rmono_trans hmono1 hm2, ?_⟩
        intro d2 hd2
        rcases List.mem_cons.mp hd2 with rfl | hd2'
        · exact hm2.1 _ hname1
        · exact hn2 d2 hd2'

lemma outerLoop_spec (c : RCtx) (ipts : List Nat) (st : RSt) (hst : RInv c st) :
    ∃ ste : RSt, outerLoop c ipts st = (ste.output, ste.trace) ∧ RInv c ste ∧
      RMono st ste ∧
      (unfoundOf c ste = [] ∨
        ∀ ipt ∈ ipts, (ste.output.getD ipt none).isSome = true ∨
          ∀ d ∈ c.dlist.getD ipt [], d.name ∈ ste.checked) := by
  induction ipts generalizing st with
  | nil =>
    exact ⟨st, rfl, hst, rmono_refl st,
      Or.inr (fun ipt h => absurd h (List.not_mem_nil ipt))⟩
  | cons ipt rest ih =>
    by_cases hso : (st.output.getD ipt none).isSome = true
    · have hso' : (st.output[ipt]?.getD none).isSome = true := by
        rw [← List.getD_eq_getElem?_getD]; exact hso
      have hrun : outerLoop c (ipt :: rest) st = outerLoop c rest st := by
        rw [outerLoop, if_pos hso]
      obtain ⟨ste, he, hi2, hm2, hpost⟩ := ih st hst
      refine ⟨ste, hrun ▸ he, hi2, hm2, ?_⟩
      rcases hpost with hl | hr
      · exact Or.inl hl
      · refine Or.inr ?_
        intro j hj
        rcases List.mem_cons.mp hj with rfl | hj'
        · exact Or.inl (hm2.2.2 j hso)
        · exact hr j hj'
    · have hso' : ¬ ((st.output[ipt]?.getD none).isSome = true) := by
        rw [← List.getD_eq_getElem?_getD]; exact hso
      have hds : ∀ d ∈ c.dlist.getD ipt [], d ∈ c.dlist.flatten :=
        fun d hd => mem_getD_flatten c.dlist ipt d hd
      rcases hil : innerLoop c (c.dlist.getD ipt []) st with out1 | st1
      · have hil' : innerLoop c (c.dlist[ipt]?.getD []) st = Sum.inl out1 := by
          rw [← List.getD_eq_getElem?_getD]; exact hil
        have hrun : outerLoop c (ipt :: rest) st = out1 := by
          rw [outerLoop, if_neg hso, hil]
        obtain ⟨ste, he, hi2, hu2, hm2⟩ := (innerLoop_spec c _ st hds hst).1 out1 hil
        exact ⟨ste, by rw [hrun, he], hi2, hm2, Or.inl hu2⟩
      · have hil' : innerLoop c (c.dlist[ipt]?.getD []) st = Sum.inr st1 := by
          rw [← List.getD_eq_getElem?_getD]; exact hil
        have hrun : outerLoop c (ipt :: rest) st = outerLoop c rest st1 := by
          rw [outerLoop, if_neg hso, hil]
        obtain ⟨hi1, hm1, hn1⟩ := (innerLoop_spec c _ st hds hst).2 st1 hil
        obtain ⟨ste, he, hi2, hm2, hpost⟩ := ih st1 hi1
        refine ⟨ste, hrun ▸ he, hi2, rmono_trans hm1 hm2, ?_⟩
        rcases hpost with hl | hr
        · exact Or.inl hl
        · refine Or.inr ?_
          intro j hj
          rcases List.mem_cons.mp hj with rfl | hj'
          · exact Or.inr (fun d hd => hm2.1 _ (hn1 d hd))
          · exact hr j hj'

lemma getD_replicate_self {α : Type} (n i : Nat) (a : α) :
    (List.replicate n a).getD i a = a := by
  rw [getD_replicate_any]; split <;> rfl

lemma rinv_init (c : RCtx) :
    RInv c { output := List.replicate c.npts none, found := List.replicate c.npts false,
             checked := [], trace := [] } := by
  refine ⟨List.length_replicate _ _, List.length_replicate _ _, List.nodup_nil,
    ?_, ?_, ?_, ?_, ?_⟩
  · intro ev hev; cases hev
  · intro ev hev; cases hev
  · intro i
    rw [show (List.replicate c.npts (none : Option OutVal)).getD i none = none from
      getD_replicate_self _ _ _]
    exact ⟨fun nm hnm => absurd hnm (List.not_mem_nil nm), List.nodup_nil⟩
  · intro i hi hcbm
    rw [show (List.replicate c.npts (none : Option OutVal)).getD i none = none from
      getD_replicate_self _ _ _,
      show (List.replicate c.npts false).getD i false = false from getD_replicate_self _ _ _]
    exact ⟨rfl, rfl⟩
  · intro hinj d hd hname i hi hcbm hmem hpt
    cases hname

lemma findDetectorsListFull_spec (env : GeomEnv) (pts : List PlanePt)
    (dlist : List (List Detector)) (allow : Bool) :
    ∃ ste : RSt,
      findDetectorsListFull env pts dlist allow = (ste.output, ste.trace) ∧
      RInv (mkRCtx env pts dlist allow) ste ∧
      (unfoundOf (mkRCtx env pts dlist allow) ste = [] ∨
        ∀ ipt ∈ List.range pts.length, (ste.output.getD ipt none).isSome = true ∨
          ∀ d ∈ dlist.getD ipt [], d.name ∈ ste.checked) := by
  obtain ⟨ste, he, hi, hm, hpost⟩ := outerLoop_spec (mkRCtx env pts dlist allow)
    (List.range pts.length)
    { output := List.replicate (mkRCtx env pts dlist allow).npts none,
      found := List.replicate (mkRCtx env pts dlist allow).npts false,
      checked := [], trace := [] } (rinv_init _)
  exact ⟨ste, he, hi, hpost⟩

lemma unfound_nil_all_found (c : RCtx) (st : RSt) (h : unfoundOf c st = [])
    (hlen : st.found.length = c.npts) (i : Nat) (hi : i < c.npts) :
    st.found.getD i false = true := by
  rw [unfoundOf, List.filter_eq_nil_iff] at h
  have h2 := h i (List.mem_range.mpr hi)
  have hl : i < st.found.length := by rw [hlen]; exact hi
  rw [getD_indep st.found i hl false true]
  simpa using h2

lemma mkRCtx_natPts_getD (env : GeomEnv) (pts : List PlanePt)
    (dlist : List (List Detector)) (allow : Bool) (i : Nat) (hi : i < pts.length) :
    (mkRCtx env pts dlist allow).natPts.getD i ptZero = env.toNative (pts.getD i ptZero) := by
  show (pts.map env.toNative).getD i ptZero = _
  exact getD_map_lt env.toNative pts i hi ptZero ptZero

lemma mkRCtx_cbm_noWavefront (env : GeomEnv) (pts : List PlanePt)
    (dlist : List (List Detector)) (allow : Bool) (i : Nat) (hi : i < pts.length)
    (hnw : ∀ d ∈ dlist.getD i [], d.wavefront = false) :
    (mkRCtx env pts dlist allow).cbm.getD i false = false := by
  show (couldBeMultipleList pts.length dlist allow).getD i false = false
  rw [couldBeMultipleList, getD_range_map _ _ _ hi]
  cases allow
  · rfl
  · simp only [Bool.true_and]
    exact List.any_eq_false.mpr (fun d hd => by rw [hnw d hd]; exact Bool.false_ne_true)

lemma mkRCtx_relEv (env : GeomEnv) (pts : List PlanePt)
    (dlist : List (List Detector)) (allow : Bool) (i : Nat) (hi : i < pts.length) :
    relEv (mkRCtx env pts dlist allow) i =
      evRelevant env (dlist.getD i []) (env.toNative (pts.getD i ptZero)) := by
  rw [relEv, mkRCtx_natPts_getD env pts dlist allow i hi]
  rfl

/-- C6: the resolver returns exactly one result entry per input point, for
batches of any length (0, 1 or more); the entry at position `i` is the
result of input point `i` by construction of the result array. -/
theorem c6_one_result_per_point (env : GeomEnv) (pts : List PlanePt)
    (dlist : List (List Detector)) (allowMultipleChips : Bool)
    (hlen : dlist.length = pts.length) :
    (findDetectorsListLSST env pts dlist allowMultipleChips).length = pts.length := by
  obtain ⟨ste, he, hi, _⟩ := findDetectorsListFull_spec env pts dlist allowMultipleChips
  rw [findDetectorsListLSST, he]
  simp only [List.length_map]
  exact hi.lenOut

/-- Witness for C6 at a concrete one-point batch. -/
theorem c6_one_result_per_point_witness :
    (findDetectorsListLSST env0 [((0:ℚ), (0:ℚ))] [[dW1]] true).length = 1 :=
  c6_one_result_per_point env0 [((0:ℚ), (0:ℚ))] [[dW1]] true (by decide)

/-- C2 (amended): each distinct detector is containment-tested at most once
during a resolve call, and every containment test runs while at least one
point's found flag is still unset.  (Points eligible for multiple
membership never get their flag set, so — contrary to the original claim —
tests may continue after every point already has a recorded result; see
the counterexample.) -/
theorem c2_detector_visits (env : GeomEnv) (pts : List PlanePt)
    (dlist : List (List Detector)) (allowMultipleChips : Bool)
    (hlen : dlist.length = pts.length) :
    ((findDetectorsListFull env pts dlist allowMultipleChips).2.map
      (fun ev => ev.det.name)).Nodup ∧
    (findDetectorsListFull env pts dlist allowMultipleChips).2.all
      (fun ev => ev.preFound.contains false) = true := by
  obtain ⟨ste, he, hi, _⟩ := findDetectorsListFull_spec env pts dlist allowMultipleChips
  rw [he]
  refine ⟨hi.traceNodup, ?_⟩
  rw [List.all_eq_true]
  intro ev hev
  have hf : false ∈ ev.preFound := hi.traceUnfound ev hev
  exact List.elem_iff.mpr hf

/-- Witness for C2's amended statement at a concrete input. -/
theorem c2_detector_visits_witness :
    ((findDetectorsListFull env0 [((0:ℚ), (0:ℚ))] [[dW1, dW2]] true).2.map
      (fun ev => ev.det.name)).Nodup ∧
    (findDetectorsListFull env0 [((0:ℚ), (0:ℚ))] [[dW1, dW2]] true).2.all
      (fun ev => ev.preFound.contains false) = true :=
  c2_detector_visits env0 [((0:ℚ), (0:ℚ))] [[dW1, dW2]] true (by decide)

/-- C2 (counterexample): with one query point on both wavefront detectors
of its shortlist and multiple chips allowed, the point has a recorded
result after the first containment test, yet the resolver still runs a
second containment test (the second trace event's pre-state result array
is fully filled).  So "terminates as soon as every point has a recorded
result" is false on the code. -/
theorem c2_counterexample_test_after_all_recorded :
    ((findDetectorsListFull env0 [((0:ℚ), (0:ℚ))] [[dW1, dW2]] true).2.getD 1
        evDummy).preOutput.all Option.isSome = true ∧
    ((findDetectorsListFull env0 [((0:ℚ), (0:ℚ))] [[dW1, dW2]] true).2.getD 1
        evDummy).det = dW2 ∧
    (findDetectorsListFull env0 [((0:ℚ), (0:ℚ))] [[dW1, dW2]] true).2.length = 2 := by
  decide

/-- C10: a composite (list) result slot accumulated by the resolver never
holds the same detector name twice. -/
theorem c10_composite_names_nodup (env : GeomEnv) (pts : List PlanePt)
    (dlist : List (List Detector)) (allowMultipleChips : Bool) (i : Nat)
    (l : List String) (hlen : dlist.length = pts.length)
    (h : (findDetectorsListFull env pts dlist allowMultipleChips).1.getD i none =
      some (OutVal.lst l)) :
    l.Nodup := by
  obtain ⟨ste, he, hi, _⟩ := findDetectorsListFull_spec env pts dlist allowMultipleChips
  rw [he] at h
  have h2 := (hi.entries i).2
  rw [show (ste.output, ste.trace).1.getD i none = ste.output.getD i none from rfl] at h
  rw [h] at h2
  exact h2

/-- Witness for C10: the concrete composite run yields the duplicate-free
list of the two wavefront names. -/
theorem c10_composite_names_nodup_witness :
    (findDetectorsListFull env0 [((0:ℚ), (0:ℚ))] [[dW1, dW2]] true).1.getD 0 none =
      some (OutVal.lst ["W1", "W2"]) ∧ List.Nodup ["W1", "W2"] :=
  ⟨by decide, c10_composite_names_nodup env0 [((0:ℚ), (0:ℚ))] [[dW1, dW2]] true 0
    ["W1", "W2"] (by decide) (by decide)⟩

/-- C5: a point whose shortlist holds no wavefront detector never gets a
composite result, even with multiple chips allowed: its result slot is
exactly the (optional) first containment-test event of the trace whose
detector is on the point shortlist and contains the point — a bare single
name — and whenever some shortlisted detector contains the point, the
point does resolve.  No warning channel exists in the embedding, matching
the code, which emits none. -/
theorem c5_ordinary_first_containing (env : GeomEnv) (pts : List PlanePt)
    (dlist : List (List Detector)) (allowMultipleChips : Bool) (i : Nat)
    (hlen : dlist.length = pts.length) (hi : i < pts.length)
    (hinj : ∀ d1 ∈ dlist.flatten, ∀ d2 ∈ dlist.flatten, d1.name = d2.name → d1 = d2)
    (hnw : ∀ d ∈ dlist.getD i [], d.wavefront = false) :
    (findDetectorsListFull env pts dlist allowMultipleChips).1.getD i none =
      ((findDetectorsListFull env pts dlist allowMultipleChips).2.find?
        (evRelevant env (dlist.getD i []) (env.toNative (pts.getD i ptZero)))).map
        (fun ev => OutVal.str ev.det.name) ∧
    ((∃ d ∈ dlist.getD i [], ptInDetector env d (env.toNative (pts.getD i ptZero)) = true) →
      ((findDetectorsListFull env pts dlist allowMultipleChips).1.getD i none).isSome =
        true) := by
  obtain ⟨ste, he, hiv, hpost⟩ := findDetectorsListFull_spec env pts dlist allowMultipleChips
  have hcbm : (mkRCtx env pts dlist allowMultipleChips).cbm.getD i false = false :=
    mkRCtx_cbm_noWavefront env pts dlist allowMultipleChips i hi hnw
  obtain ⟨so, sf⟩ := hiv.single i hi hcbm
  rw [mkRCtx_relEv env pts dlist allowMultipleChips i hi] at so sf
  constructor
  · rw [he]
    exact so
  · rintro ⟨d0, hd0, hpt0⟩
    rw [he]
    show (ste.output.getD i none).isSome = true
    rw [so, Option.isSome_map']
    rcases hpost with hunf | hpost
    · have hfound := unfound_nil_all_found (mkRCtx env pts dlist allowMultipleChips) ste
        hunf hiv.lenFound i hi
      rw [sf] at hfound
      exact hfound
    · rcases hpost i (List.mem_range.mpr hi) with hsome | hchk
      · rw [so, Option.isSome_map'] at hsome
        exact hsome
      · have hflat : d0 ∈ dlist.flatten := mem_getD_flatten dlist i d0 hd0
        have hpt0' : ptInDetector (mkRCtx env pts dlist allowMultipleChips).env d0
            ((mkRCtx env pts dlist allowMultipleChips).natPts.getD i ptZero) = true := by
          rw [mkRCtx_natPts_getD env pts dlist allowMultipleChips i hi]
          exact hpt0
        have hfound := hiv.compl hinj d0 hflat (hchk d0 hd0) i hi hcbm hd0 hpt0'
        rw [sf] at hfound
        exact hfound

/-- Witness for C5 at a one-point batch over two ordinary detectors. -/
theorem c5_ordinary_first_containing_witness :
    (findDetectorsListFull env0 [((0:ℚ), (0:ℚ))] [[dO1, dO2]] true).1.getD 0 none =
      ((findDetectorsListFull env0 [((0:ℚ), (0:ℚ))] [[dO1, dO2]] true).2.find?
        (evRelevant env0 ([[dO1, dO2]].getD 0 []) (env0.toNative ([((0:ℚ), (0:ℚ))].getD 0
          ptZero)))).map (fun ev => OutVal.str ev.det.name) ∧
    ((∃ d ∈ [[dO1, dO2]].getD 0 [],
        ptInDetector env0 d (env0.toNative ([((0:ℚ), (0:ℚ))].getD 0 ptZero)) = true) →
      ((findDetectorsListFull env0 [((0:ℚ), (0:ℚ))] [[dO1, dO2]] true).1.getD 0
        none).isSome = true) :=
  c5_ordinary_first_containing env0 [((0:ℚ), (0:ℚ))] [[dO1, dO2]] true 0
    (by decide) (by decide) (by decide) (by decide)

/-- C1 (code bug, evaluation at the failing input): the second point
(0, 0) lies inside the pixel boxes of both wavefront detectors `dW1` and
`dW2`, both are on its shortlist, and multiple chips are allowed — yet the
resolver returns the bare single name "W1" for it, not the composite
list value, because the outer-loop guard skips a point that already
received a result through an earlier point's iteration, so `dW2` is never
tested.  This contradicts the claim and the function docstring ("a list
of chipNames will appear for that object"). -/
theorem c1_multi_wavefront_eval :
    findDetectorsListLSST env0 [((5:ℚ), (5:ℚ)), ((0:ℚ), (0:ℚ))] [[dW1], [dW1, dW2]] true =
      [none, some "W1"] ∧
    ptInDetector env0 dW1 ((0:ℚ), (0:ℚ)) = true ∧
    ptInDetector env0 dW2 ((0:ℚ), (0:ℚ)) = true ∧
    dW1.wavefront = true ∧ dW2.wavefront = true ∧
    findDetectorsListLSST env0 [((0:ℚ), (0:ℚ))] [[dW1, dW2]] true =
      [some (pyStrOfList ["W1", "W2"])] := by
  decide

lemma cornerPairs_length (camera : List Detector) (cornerFn : String → List PlanePt)
    (h4 : ∀ chip ∈ camera, (cornerFn chip.name).length = 4) :
    (cornerPairs camera cornerFn).length = 4 * camera.length := by
  induction camera with
  | nil => rfl
  | cons chip rest ih =>
    rw [cornerPairs, List.flatMap_cons, List.length_append, List.length_map,
      h4 chip (List.mem_cons_self chip rest)]
    have htail : (rest.flatMap fun c => (cornerFn c.name).map fun cr => (c.name, cr)) =
        cornerPairs rest cornerFn := rfl
    rw [htail, ih (fun c hc => h4 c (List.mem_cons_of_mem chip hc)), List.length_cons]
    omega

lemma cornerPairs_getD (camera : List Detector) (cornerFn : String → List PlanePt)
    (h4 : ∀ chip ∈ camera, (cornerFn chip.name).length = 4)
    (i j : Nat) (hi : i < camera.length) (hj : j < 4) :
    (cornerPairs camera cornerFn).getD (4*i + j) ("", ptZero) =
      ((camera.getD i dummyDet).name,
        (cornerFn (camera.getD i dummyDet).name).getD j ptZero) := by
  induction camera generalizing i with
  | nil => cases hi
  | cons chip rest ih =>
    have hlenhd : ((cornerFn chip.name).map (fun cr => (chip.name, cr))).length = 4 := by
      rw [List.length_map]; exact h4 chip (List.mem_cons_self chip rest)
    rw [cornerPairs, List.flatMap_cons]
    cases i with
    | zero =>
      have hidx : 4 * 0 + j = j := by omega
      rw [hidx]
      have hjlt : j < ((cornerFn chip.name).map (fun cr => (chip.name, cr))).length := by
        rw [hlenhd]; exact hj
      have hjc : j < (cornerFn chip.name).length := by
        rw [h4 chip (List.mem_cons_self chip rest)]; exact hj
      rw [List.getD_eq_getElem?_getD, List.getElem?_append, if_pos hjlt,
        List.getElem?_map, List.getElem?_eq_getElem hjc]
      show (chip.name, (cornerFn chip.name)[j]) = _
      have hval : ((chip :: rest).getD 0 dummyDet) = chip := rfl
      rw [hval, List.getD_eq_getElem?_getD, List.getElem?_eq_getElem hjc]
      rfl
    | succ i' =>
      have hidx : 4 * (i' + 1) + j =
          ((cornerFn chip.name).map (fun cr => (chip.name, cr))).length + (4 * i' + j) := by
        rw [hlenhd]; omega
      rw [List.getD_eq_getElem?_getD, hidx,
        List.getElem?_append_right (Nat.le_add_right _ _), Nat.add_sub_cancel_left,
        ← List.getD_eq_getElem?_getD]
      have hi' : i' < rest.length := by
        have := hi
        simp only [List.length_cons] at this
        omega
      have hstep := ih (fun c hc => h4 c (List.mem_cons_of_mem chip hc)) i' hi'
      rw [show (rest.flatMap fun c => (cornerFn c.name).map fun cr => (c.name, cr)) =
        cornerPairs rest cornerFn from rfl]
      rw [hstep]
      rfl

lemma pupList_getD (env : GeomEnv) (camera : List Detector)
    (cornerFn : String → List PlanePt)
    (h4 : ∀ chip ∈ camera, (cornerFn chip.name).length = 4)
    (i j : Nat) (hi : i < camera.length) (hj : j < 4) :
    ((cornerPairs camera cornerFn).map (fun pr => env.pixToPupil pr.1 pr.2)).getD
        (4*i + j) ptZero =
      env.pixToPupil (camera.getD i dummyDet).name
        ((cornerFn (camera.getD i dummyDet).name).getD j ptZero) := by
  have hlt : 4*i + j < (cornerPairs camera cornerFn).length := by
    rw [cornerPairs_length camera cornerFn h4]; omega
  rw [getD_map_lt _ _ _ hlt ptZero ("", ptZero),
    cornerPairs_getD camera cornerFn h4 i j hi hj]

/-- C3: the footprint index holds one record per detector in camera
iteration order (its name list is the camera name list), the center of
record `i` is the arithmetic mean of the four transformed corners of
chip `i`, and its radius is the mean of the four center-to-corner
distances. -/
theorem c3_footprint_centers_radii (env : GeomEnv) (camera : List Detector)
    (cornerFn : String → List PlanePt)
    (h4 : ∀ chip ∈ camera, (cornerFn chip.name).length = 4) :
    (mkPupilCoordMap env camera cornerFn).name = camera.map (fun d => d.name) ∧
    (mkPupilCoordMap env camera cornerFn).xx.length = camera.length ∧
    (mkPupilCoordMap env camera cornerFn).yy.length = camera.length ∧
    (mkPupilCoordMap env camera cornerFn).dp.length = camera.length ∧
    ∀ i, i < camera.length →
      (mkPupilCoordMap env camera cornerFn).xx.getD i 0 =
          (specCenter env camera cornerFn i).1 ∧
      (mkPupilCoordMap env camera cornerFn).yy.getD i 0 =
          (specCenter env camera cornerFn i).2 ∧
      (mkPupilCoordMap env camera cornerFn).dp.getD i 0 =
        (specDist env camera cornerFn i 0 + specDist env camera cornerFn i 1
          + specDist env camera cornerFn i 2 + specDist env camera cornerFn i 3) / 4 := by
  have hpup : ∀ i j, i < camera.length → j < 4 →
      ((cornerPairs camera cornerFn).map (fun pr => env.pixToPupil pr.1 pr.2)).getD
        (4*i + j) ptZero = specCorner env camera cornerFn i j :=
    fun i j hi hj => pupList_getD env camera cornerFn h4 i j hi hj
  have hlension : ∀ f : Nat → ℚ, ((List.range camera.length).map f).length = camera.length := by
    intro f; rw [List.length_map, List.length_range]
  refine ⟨?_, hlension _, hlension _, hlension _, ?_⟩
  · show (List.range camera.length).map
        (fun i => ((cornerPairs camera cornerFn).getD (4*i) ("", ptZero)).1) =
      camera.map (fun d => d.name)
    apply List.ext_getElem
    · simp
    · intro n h1 h2
      simp only [List.getElem_map, List.getElem_range]
      have hn : n < camera.length := by simpa using h2
      have hc := cornerPairs_getD camera cornerFn h4 n 0 hn (by omega)
      simp only [Nat.add_zero] at hc
      rw [hc]
      have hget : camera.getD n dummyDet = camera[n] := by
        rw [List.getD_eq_getElem?_getD, List.getElem?_eq_getElem hn]
        rfl
      rw [hget]
  · intro i hi
    have hp0 : ((cornerPairs camera cornerFn).map (fun pr => env.pixToPupil pr.1 pr.2)).getD
        (4*i) ptZero = specCorner env camera cornerFn i 0 := by
      have := hpup i 0 hi (by omega)
      simpa using this
    have hp1 := hpup i 1 hi (by omega)
    have hp2 := hpup i 2 hi (by omega)
    have hp3 := hpup i 3 hi (by omega)
    refine ⟨?_, ?_, ?_⟩
    · show ((List.range camera.length).map (fun k =>
        (1/4 : ℚ) * ((((cornerPairs camera cornerFn).map
              (fun pr => env.pixToPupil pr.1 pr.2)).getD (4*k) ptZero).1
          + (((cornerPairs camera cornerFn).map
              (fun pr => env.pixToPupil pr.1 pr.2)).getD (4*k+1) ptZero).1
          + (((cornerPairs camera cornerFn).map
              (fun pr => env.pixToPupil pr.1 pr.2)).getD (4*k+2) ptZero).1
          + (((cornerPairs camera cornerFn).map
              (fun pr => env.pixToPupil pr.1 pr.2)).getD (4*k+3) ptZero).1))).getD i 0 =
        (specCenter env camera cornerFn i).1
      rw [getD_range_map _ _ _ hi, hp0, hp1, hp2, hp3, specCenter]
      ring
    · show ((List.range camera.length).map (fun k =>
        (1/4 : ℚ) * ((((cornerPairs camera cornerFn).map
              (fun pr => env.pixToPupil pr.1 pr.2)).getD (4*k) ptZero).2
          + (((cornerPairs camera cornerFn).map
              (fun pr => env.pixToPupil pr.1 pr.2)).getD (4*k+1) ptZero).2
          + (((cornerPairs camera cornerFn).map
              (fun pr => env.pixToPupil pr.1 pr.2)).getD (4*k+2) ptZero).2
          + (((cornerPairs camera cornerFn).map
              (fun pr => env.pixToPupil pr.1 pr.2)).getD (4*k+3) ptZero).2))).getD i 0 =
        (specCenter env camera cornerFn i).2
      rw [getD_range_map _ _ _ hi, hp0, hp1, hp2, hp3, specCenter]
      ring
    · rw [show (mkPupilCoordMap env camera cornerFn).dp =
        (List.range camera.length).map (fun k =>
          (1/4 : ℚ) * (cornerDist env
              ((1/4) * ((((cornerPairs camera cornerFn).map
                  (fun pr => env.pixToPupil pr.1 pr.2)).getD (4*k) ptZero).1
                + (((cornerPairs camera cornerFn).map
                  (fun pr => env.pixToPupil pr.1 pr.2)).getD (4*k+1) ptZero).1
                + (((cornerPairs camera cornerFn).map
                  (fun pr => env.pixToPupil pr.1 pr.2)).getD (4*k+2) ptZero).1
                + (((cornerPairs camera cornerFn).map
                  (fun pr => env.pixToPupil pr.1 pr.2)).getD (4*k+3) ptZero).1))
              ((1/4) * ((((cornerPairs camera cornerFn).map
                  (fun pr => env.pixToPupil pr.1 pr.2)).getD (4*k) ptZero).2
                + (((cornerPairs camera cornerFn).map
                  (fun pr => env.pixToPupil pr.1 pr.2)).getD (4*k+1) ptZero).2
                + (((cornerPairs camera cornerFn).map
                  (fun pr => env.pixToPupil pr.1 pr.2)).getD (4*k+2) ptZero).2
                + (((cornerPairs camera cornerFn).map
                  (fun pr => env.pixToPupil pr.1 pr.2)).getD (4*k+3) ptZero).2))
              (((cornerPairs camera cornerFn).map
                (fun pr => env.pixToPupil pr.1 pr.2)).getD (4*k) ptZero)
            + cornerDist env
              ((1/4) * ((((cornerPairs camera cornerFn).map
                  (fun pr => env.pixToPupil pr.1 pr.2)).getD (4*k) ptZero).1
                + (((cornerPairs camera cornerFn).map
                  (fun pr => env.pixToPupil pr.1 pr.2)).getD (4*k+1) ptZero).1
                + (((cornerPairs camera cornerFn).map
                  (fun pr => env.pixToPupil pr.1 pr.2)).getD (4*k+2) ptZero).1
                + (((cornerPairs camera cornerFn).map
                  (fun pr => env.pixToPupil pr.1 pr.2)).getD (4*k+3) ptZero).1))
              ((1/4) * ((((cornerPairs camera cornerFn).map
                  (fun pr => env.pixToPupil pr.1 pr.2)).getD (4*k) ptZero).2
                + (((cornerPairs camera cornerFn).map
                  (fun pr => env.pixToPupil pr.1 pr.2)).getD (4*k+1) ptZero).2
                + (((cornerPairs camera cornerFn).map
                  (fun pr => env.pixToPupil pr.1 pr.2)).getD (4*k+2) ptZero).2
                + (((cornerPairs camera cornerFn).map
                  (fun pr => env.pixToPupil pr.1 pr.2)).getD (4*k+3) ptZero).2))
              (((cornerPairs camera cornerFn).map
                (fun pr => env.pixToPupil pr.1 pr.2)).getD (4*k+1) ptZero)
            + cornerDist env
              ((1/4) * ((((cornerPairs camera cornerFn).map
                  (fun pr => env.pixToPupil pr.1 pr.2)).getD (4*k) ptZero).1
                + (((cornerPairs camera cornerFn).map
                  (fun pr => env.pixToPupil pr.1 pr.2)).getD (4*k+1) ptZero).1
                + (((cornerPairs camera cornerFn).map
                  (fun pr => env.pixToPupil pr.1 pr.2)).getD (4*k+2) ptZero).1
                + (((cornerPairs camera cornerFn).map
                  (fun pr => env.pixToPupil pr.1 pr.2)).getD (4*k+3) ptZero).1))
              ((1/4) * ((((cornerPairs camera cornerFn).map
                  (fun pr => env.pixToPupil pr.1 pr.2)).getD (4*k) ptZero).2
                + (((cornerPairs camera cornerFn).map
                  (fun pr => env.pixToPupil pr.1 pr.2)).getD (4*k+1) ptZero).2
                + (((cornerPairs camera cornerFn).map
                  (fun pr => env.pixToPupil pr.1 pr.2)).getD (4*k+2) ptZero).2
                + (((cornerPairs camera cornerFn).map
                  (fun pr => env.pixToPupil pr.1 pr.2)).getD (4*k+3) ptZero).2))
              (((cornerPairs camera cornerFn).map
                (fun pr => env.pixToPupil pr.1 pr.2)).getD (4*k+2) ptZero)
            + cornerDist env
              ((1/4) * ((((cornerPairs camera cornerFn).map
                  (fun pr => env.pixToPupil pr.1 pr.2)).getD (4*k) ptZero).1
                + (((cornerPairs camera cornerFn).map
                  (fun pr => env.pixToPupil pr.1 pr.2)).getD (4*k+1) ptZero).1
                + (((cornerPairs camera cornerFn).map
                  (fun pr => env.pixToPupil pr.1 pr.2)).getD (4*k+2) ptZero).1
                + (((cornerPairs camera cornerFn).map
                  (fun pr => env.pixToPupil pr.1 pr.2)).getD (4*k+3) ptZero).1))
              ((1/4) * ((((cornerPairs camera cornerFn).map
                  (fun pr => env.pixToPupil pr.1 pr.2)).getD (4*k) ptZero).2
                + (((cornerPairs camera cornerFn).map
                  (fun pr => env.pixToPupil pr.1 pr.2)).getD (4*k+1) ptZero).2
                + (((cornerPairs camera cornerFn).map
                  (fun pr => env.pixToPupil pr.1 pr.2)).getD (4*k+2) ptZero).2
                + (((cornerPairs camera cornerFn).map
                  (fun pr => env.pixToPupil pr.1 pr.2)).getD (4*k+3) ptZero).2))
              (((cornerPairs camera cornerFn).map
                (fun pr => env.pixToPupil pr.1 pr.2)).getD (4*k+3) ptZero))) from rfl]
      rw [getD_range_map _ _ _ hi]
      simp only [cornerDist]
      rw [hp0, hp1, hp2, hp3]
      simp only [specDist, specCenter]
      have e1 : (1/4 : ℚ) * ((specCorner env camera cornerFn i 0).1
          + (specCorner env camera cornerFn i 1).1 + (specCorner env camera cornerFn i 2).1
          + (specCorner env camera cornerFn i 3).1) =
        ((specCorner env camera cornerFn i 0).1 + (specCorner env camera cornerFn i 1).1
          + (specCorner env camera cornerFn i 2).1
          + (specCorner env camera cornerFn i 3).1) / 4 := by ring
      have e2 : (1/4 : ℚ) * ((specCorner env camera cornerFn i 0).2
          + (specCorner env camera cornerFn i 1).2 + (specCorner env camera cornerFn i 2).2
          + (specCorner env camera cornerFn i 3).2) =
        ((specCorner env camera cornerFn i 0).2 + (specCorner env camera cornerFn i 1).2
          + (specCorner env camera cornerFn i 2).2
          + (specCorner env camera cornerFn i 3).2) / 4 := by ring
      rw [e1, e2]
      ring

/-- Witness for C3 on a one-detector camera with the unit-square corners. -/
theorem c3_footprint_centers_radii_witness :
    (mkPupilCoordMap env0 [dA] corner4).name = [dA].map (fun d => d.name) ∧
    (mkPupilCoordMap env0 [dA] corner4).xx.length = [dA].length ∧
    (mkPupilCoordMap env0 [dA] corner4).yy.length = [dA].length ∧
    (mkPupilCoordMap env0 [dA] corner4).dp.length = [dA].length ∧
    ∀ i, i < [dA].length →
      (mkPupilCoordMap env0 [dA] corner4).xx.getD i 0 =
          (specCenter env0 [dA] corner4 i).1 ∧
      (mkPupilCoordMap env0 [dA] corner4).yy.getD i 0 =
          (specCenter env0 [dA] corner4 i).2 ∧
      (mkPupilCoordMap env0 [dA] corner4).dp.getD i 0 =
        (specDist env0 [dA] corner4 i 0 + specDist env0 [dA] corner4 i 1
          + specDist env0 [dA] corner4 i 2 + specDist env0 [dA] corner4 i 3) / 4 :=
  c3_footprint_centers_radii env0 [dA] corner4 (by decide)

/-- C4: a detector found in the camera under the name of footprint record
`i` is on the shortlist of the point (x, y) exactly when the normalized
center distance of record `i` — the square root of the squared Euclidean
distance, divided by the record radius — is strictly below 1.1. -/
theorem c4_shortlist_iff (env : GeomEnv) (camera : List Detector) (m : PupilCoordMap)
    (x y : ℚ) (d : Detector) (i : Nat)
    (hnd : m.name.Nodup) (hlen : m.name.length = m.xx.length) (hi : i < m.xx.length)
    (hlook : cameraLookup camera (m.name.getD i "") = some d) :
    d ∈ shortlistOne env camera m x y ↔
      env.sqrt ((x - m.xx.getD i 0) * (x - m.xx.getD i 0)
        + (y - m.yy.getD i 0) * (y - m.yy.getD i 0)) / m.dp.getD i 0 < 11/10 := by
  constructor
  · intro hmem
    rw [shortlistOne] at hmem
    obtain ⟨j, hj, hlookj⟩ := List.mem_filterMap.mp hmem
    obtain ⟨hjr, hcond⟩ := List.mem_filter.mp hj
    rw [List.mem_range] at hjr
    have hnamej : d.name = m.name.getD j "" := by
      have := List.find?_some hlookj
      simpa using this
    have hnamei : d.name = m.name.getD i "" := by
      have := List.find?_some hlook
      simpa using this
    have hjlt : j < m.name.length := by rw [hlen]; exact hjr
    have hilt : i < m.name.length := by rw [hlen]; exact hi
    have hgeteq : m.name[j] = m.name[i] := by
      have e1 : m.name.getD j "" = m.name[j] := by
        rw [List.getD_eq_getElem?_getD, List.getElem?_eq_getElem hjlt]; rfl
      have e2 : m.name.getD i "" = m.name[i] := by
        rw [List.getD_eq_getElem?_getD, List.getElem?_eq_getElem hilt]; rfl
      rw [← e1, ← e2, ← hnamej, ← hnamei]
    have hij : j = i := (List.Nodup.getElem_inj_iff hnd).mp hgeteq
    subst hij
    exact of_decide_eq_true hcond
  · intro hcond
    rw [shortlistOne]
    refine List.mem_filterMap.mpr ⟨i, ?_, hlook⟩
    exact List.mem_filter.mpr ⟨List.mem_range.mpr hi, decide_eq_true hcond⟩

/-- Witness for C4 at the concrete footprint index `m4` and the origin. -/
theorem c4_shortlist_iff_witness :
    (dA ∈ shortlistOne env0 [dA] m4 0 0 ↔
      env0.sqrt ((0 - m4.xx.getD 0 0) * (0 - m4.xx.getD 0 0)
        + (0 - m4.yy.getD 0 0) * (0 - m4.yy.getD 0 0)) / m4.dp.getD 0 0 < 11/10) :=
  c4_shortlist_iff env0 [dA] m4 0 0 dA 0 (by decide) (by decide) (by decide) (by decide)

/-- C7: the sky-coordinate entry point fails whenever the observation
context is absent, or lacks its mjd, or lacks its rotSkyPos; and the
result does not depend on the sky transform collaborator — no coordinate
transform is attempted before the error. -/
theorem c7_missing_obs_context_raises (env : GeomEnv) (camera : List Detector)
    (cornerFn : String → List PlanePt) (mapState : Option PupilCoordMap)
    (skyT : PupilInput → ObsMeta → ℚ → PupilInput) (radec : PupilInput)
    (obs : Option ObsMeta) (epoch : Option ℚ) (allowMultipleChips : Bool)
    (h : obs = none ∨ ∃ ob, obs = some ob ∧ (ob.mjd = none ∨ ob.rotSkyPos = none)) :
    (∃ msg, chipNameFromRaDecLSST env camera cornerFn mapState skyT radec obs epoch
        allowMultipleChips = .error msg) ∧
    ∀ skyT2, chipNameFromRaDecLSST env camera cornerFn mapState skyT radec obs epoch
        allowMultipleChips =
      chipNameFromRaDecLSST env camera cornerFn mapState skyT2 radec obs epoch
        allowMultipleChips := by
  rcases hval : validateInputs radec with e | b
  · exact ⟨⟨e, by rw [chipNameFromRaDecLSST.eq_def, hval]⟩,
      fun skyT2 => by
        rw [chipNameFromRaDecLSST.eq_def, hval, chipNameFromRaDecLSST.eq_def, hval]⟩
  · by_cases hep : epoch.isNone = true
    · refine ⟨⟨"You need to pass an epoch into chipName", ?_⟩, fun skyT2 => ?_⟩
      · simp [chipNameFromRaDecLSST.eq_def, hval, hep]
      · simp [chipNameFromRaDecLSST.eq_def, hval, hep]
    · rcases h with hobs | ⟨ob, hob, hmr⟩
      · subst hobs
        refine ⟨⟨"You need to pass an ObservationMetaData into chipName", ?_⟩,
          fun skyT2 => ?_⟩
        · simp [chipNameFromRaDecLSST.eq_def, hval, hep]
        · simp [chipNameFromRaDecLSST.eq_def, hval, hep]
      · subst hob
        rcases hmr with hm | hr
        · refine ⟨⟨"You need to pass an ObservationMetaData with an mjd into chipName", ?_⟩,
            fun skyT2 => ?_⟩
          · simp [chipNameFromRaDecLSST.eq_def, hval, hep, hm]
          · simp [chipNameFromRaDecLSST.eq_def, hval, hep, hm]
        · by_cases hmjd : ob.mjd.isNone = true
          · refine ⟨⟨"You need to pass an ObservationMetaData with an mjd into chipName",
              ?_⟩, fun skyT2 => ?_⟩
            · simp [chipNameFromRaDecLSST.eq_def, hval, hep, hmjd]
            · simp [chipNameFromRaDecLSST.eq_def, hval, hep, hmjd]
          · refine ⟨⟨"You need to pass an ObservationMetaData with a rotSkyPos into chipName",
              ?_⟩, fun skyT2 => ?_⟩
            · simp [chipNameFromRaDecLSST.eq_def, hval, hep, hmjd, hr]
            · simp [chipNameFromRaDecLSST.eq_def, hval, hep, hmjd, hr]

/-- Witness for C7 with the context object absent. -/
theorem c7_missing_obs_context_raises_witness :
    (∃ msg, chipNameFromRaDecLSST env0 [dA] corner4 none (fun r _ _ => r)
        (.arrays [] []) none (some 2000) false = .error msg) ∧
    ∀ skyT2, chipNameFromRaDecLSST env0 [dA] corner4 none (fun r _ _ => r)
        (.arrays [] []) none (some 2000) false =
      chipNameFromRaDecLSST env0 [dA] corner4 none skyT2
        (.arrays [] []) none (some 2000) false :=
  c7_missing_obs_context_raises env0 [dA] corner4 none (fun r _ _ => r)
    (.arrays [] []) none (some 2000) false (Or.inl rfl)

/-- C8: requesting a build of the footprint index when it is already built
raises, and in particular no successful build is possible from a built
state — a successful build can only happen from the unbuilt state, hence
at most once per process. -/
theorem c8_double_build_raises (env : GeomEnv) (camera : List Detector)
    (cornerFn : String → List PlanePt) (cur : Option PupilCoordMap)
    (h : cur.isSome = true) :
    buildPupilCoordMap env camera cornerFn cur =
      .error "Calling _build_pupil_coord_map(), but it is already built." ∧
    ∀ m, ¬ (buildPupilCoordMap env camera cornerFn cur = .ok m) := by
  rcases cur with _ | m0
  · cases h
  · exact ⟨rfl, fun m hm => by cases hm⟩

/-- Witness for C8 from an already-built state. -/
theorem c8_double_build_raises_witness :
    buildPupilCoordMap env0 [dA] corner4 (some m4) =
      .error "Calling _build_pupil_coord_map(), but it is already built." :=
  (c8_double_build_raises env0 [dA] corner4 (some m4) (by decide)).1

/-- C9: scalar pupil coordinates passed to the projected-plane entry point
always raise the input-shape error, for every scalar pair and every state
of the index. -/
theorem c9_scalar_input_raises (env : GeomEnv) (camera : List Detector)
    (cornerFn : String → List PlanePt) (mapState : Option PupilCoordMap)
    (x y : ℚ) (allowMultipleChips : Bool) :
    chipNameFromPupilCoordsLSST env camera cornerFn mapState (.scalar x y)
        allowMultipleChips =
      .error "Pupil coordinates passed to chipNameFromPupilCoordsLSST must be in numpy arrays" := by
  rcases mapState with _ | m0 <;> rfl
